import Mathlib

/-!
Verification development for the RenderDoc MCP bridge.

This file gives a shallow embedding of the core of the repository:
the action-tree filtering algorithm (Serializers.serialize_actions in
renderdoc_extension/renderdoc_facade.py), the request router
(RequestHandler.handle in renderdoc_extension/request_handler.py), the
connection worker loop (MCPBridgeServer._handle_client in
renderdoc_extension/socket_server.py) and the length-prefixed frame
transport (socket_server.py and mcp_server/bridge/client.py), together
with theorems about the testable properties of these components.

Modelling conventions: Python byte strings are lists of naturals, Python
ints are Lean Int, fallible Python code returns Except, a raised
ValueError and any other exception are distinguished by the PyError type,
and the external capture data provider (the renderdoc module) is an
opaque function field of the facade state.
-/

namespace RDMCP

/-! ## Data model: actions and flags (renderdoc_facade.py) -/

/-- The action flag kinds enumerated in Serializers.serialize_flags. -/
inductive ActionFlag where
  | Drawcall | Dispatch | Clear | PushMarker | PopMarker | SetMarker
  | Present | Copy | Resolve | GenMips | PassBoundary | Indexed
  | Instanced | Auto | Indirect | ClearColor | ClearDepthStencil
  | BeginPass | EndPass
deriving DecidableEq

/-- Whether a flag set contains a given flag; models the bit test
(flags AND flag) of the Python code, with a flag set as a list. -/
def hasFlag (fl : List ActionFlag) (f : ActionFlag) : Bool :=
  fl.any (fun g => g == f)

/-- The flag-to-name table of Serializers.serialize_flags, in source
order. -/
def flagMap : List (ActionFlag × String) :=
  [(.Drawcall, "Drawcall"), (.Dispatch, "Dispatch"), (.Clear, "Clear"),
   (.PushMarker, "PushMarker"), (.PopMarker, "PopMarker"),
   (.SetMarker, "SetMarker"), (.Present, "Present"), (.Copy, "Copy"),
   (.Resolve, "Resolve"), (.GenMips, "GenMips"),
   (.PassBoundary, "PassBoundary"), (.Indexed, "Indexed"),
   (.Instanced, "Instanced"), (.Auto, "Auto"), (.Indirect, "Indirect"),
   (.ClearColor, "ClearColor"), (.ClearDepthStencil, "ClearDepthStencil"),
   (.BeginPass, "BeginPass"), (.EndPass, "EndPass")]

/-- Serializers.serialize_flags: the names of the present flags, in
table order. -/
def serializeFlags (fl : List ActionFlag) : List String :=
  (flagMap.filter (fun p => hasFlag fl p.1)).map Prod.snd

mutual

/-- One GPU event of the capture: the attributes of a renderdoc action
that serialize_actions reads (eventId, actionId, GetName, flags,
numIndices, numInstances, children). -/
inductive Action where
  | mk (eventId : Int) (actionId : Nat) (name : String)
       (flags : List ActionFlag) (numIndices numInstances : Nat)
       (children : ActionList)

/-- An ordered sequence of actions (a forest level). A bespoke list type
is used so that all tree recursions below are structural and compute by
kernel reduction. -/
inductive ActionList where
  | nil
  | cons (a : Action) (rest : ActionList)

end

/-- Emptiness test for an action list; models Python truthiness of the
children attribute. -/
def ActionList.isEmpty : ActionList → Bool
  | .nil => true
  | .cons _ _ => false

mutual

/-- A serialized output node of serialize_actions: the dict with keys
event_id, action_id, name, flags, num_indices, num_instances and the
children key (an empty children list models the absent key). -/
inductive SAction where
  | mk (event_id : Int) (action_id : Nat) (name : String)
       (flags : List String) (num_indices num_instances : Nat)
       (children : SActionList)

/-- A list of serialized output nodes. -/
inductive SActionList where
  | nil
  | cons (s : SAction) (rest : SActionList)

end

/-- Appending serialized output lists; models list.extend / append in
the serialization loop. -/
def SActionList.append : SActionList → SActionList → SActionList
  | .nil, ys => ys
  | .cons x xs, ys => .cons x (SActionList.append xs ys)

instance : Append SActionList := ⟨SActionList.append⟩

/-- Emptiness of a serialized list (Python truthiness of the result
list). -/
def SActionList.isEmpty : SActionList → Bool
  | .nil => true
  | .cons _ _ => false

/-! ## Substring test (the Python operator needle in haystack) -/

/-- needle is a leading segment of hay. -/
def charsPre : List Char → List Char → Bool
  | [], _ => true
  | _ :: _, [] => false
  | a :: as, b :: bs => a == b && charsPre as bs

/-- needle occurs contiguously inside hay. -/
def charsInfix (needle : List Char) : List Char → Bool
  | [] => needle.isEmpty
  | b :: bs => charsPre needle (b :: bs) || charsInfix needle bs

/-- The Python substring operator: needle in hay. -/
def strContains (hay needle : String) : Bool :=
  charsInfix needle.toList hay.toList

/-! ## Filter criteria (the keyword arguments of serialize_actions) -/

/-- The filter criteria of serialize_actions. Options model Python None
defaults. -/
structure Criteria where
  include_children : Bool
  marker_filter : Option String
  exclude_markers : Option (List String)
  event_id_min : Option Int
  event_id_max : Option Int
  only_actions : Bool
  flags_filter : Option (List String)

/-- Python truthiness of marker_filter (if marker_filter:). -/
def markerFilterActive (c : Criteria) : Bool :=
  match c.marker_filter with
  | none => false
  | some s => !(s == "")

/-- The test marker_filter in name. -/
def markerFilterHits (c : Criteria) (nm : String) : Bool :=
  match c.marker_filter with
  | none => false
  | some s => strContains nm s

/-- Step 1 of serialize_actions: exclude_markers is truthy and some
excluded string occurs in the name. -/
def excludedMarker (c : Criteria) (nm : String) : Bool :=
  match c.exclude_markers with
  | none => false
  | some l => !l.isEmpty && l.any (fun ex => strContains nm ex)

/-- Python truthiness of the flags filter set built from flags_filter. -/
def flagsFilterActive (c : Criteria) : Bool :=
  match c.flags_filter with
  | none => false
  | some l => !l.isEmpty

/-- Step 5 test: some serialized flag name of the action is in the
flags filter set. -/
def flagsPass (c : Criteria) (fl : List ActionFlag) : Bool :=
  match c.flags_filter with
  | none => false
  | some lst => (serializeFlags fl).any (fun n => lst.contains n)

/-- Step 3: the event-id range test for non-marker actions. Bounds set
to none model Python None (the code tests is-not-None, so a zero bound
is active). -/
def inRange (c : Criteria) (eid : Int) : Bool :=
  (match c.event_id_min with
   | none => true
   | some m => !(eid < m)) &&
  (match c.event_id_max with
   | none => true
   | some mx => !(mx < eid))

/-- Marker test: any of PushMarker, SetMarker, PopMarker present. -/
def isMarkerFl (fl : List ActionFlag) : Bool :=
  hasFlag fl .PushMarker || hasFlag fl .SetMarker || hasFlag fl .PopMarker

/-- Step 2 of serialize_actions: in_matching becomes true exactly when
marker_filter is truthy, the node is a PushMarker and the filter string
occurs in the name; otherwise the inherited value is kept. -/
def updateInMatching (c : Criteria) (isPush : Bool) (nm : String)
    (inM : Bool) : Bool :=
  if markerFilterActive c && isPush && markerFilterHits c nm then true
  else inM

/-- Step 6: passes_marker_filter = not marker_filter or in_matching. -/
def passesMarker (c : Criteria) (inM : Bool) : Bool :=
  !(markerFilterActive c) || inM

/-- The in_range value computed at step 3: markers are never
range-checked. -/
def markerRange (c : Criteria) (fl : List ActionFlag) (eid : Int) : Bool :=
  if isMarkerFl fl then true else inRange c eid

/-- Step 7 inclusion decision of serialize_actions. -/
def shouldInclude (isM childrenEmpty passes inRg : Bool) : Bool :=
  if isM then !childrenEmpty && passes else inRg && passes

mutual

/-- Serializers.serialize_actions: the recursive filtering traversal
over a list of actions, threading the internal _in_matching_marker
flag. Each loop iteration contributes the output of serializeOne. -/
def serializeActions (c : Criteria) : Bool → ActionList → SActionList
  | _, .nil => .nil
  | inM, .cons a rest =>
    SActionList.append (serializeOne c inM a) (serializeActions c inM rest)

/-- The body of one iteration of the serialize_actions loop: steps 1-7
for a single action, in source order. -/
def serializeOne (c : Criteria) : Bool → Action → SActionList
  | inM0, .mk eid aid nm fl ni nins cs =>
    if excludedMarker c nm && isMarkerFl fl then .nil
    else if c.only_actions && isMarkerFl fl then
      (if c.include_children && !cs.isEmpty then
        serializeActions c (updateInMatching c (hasFlag fl .PushMarker) nm inM0) cs
      else .nil)
    else if flagsFilterActive c && !(isMarkerFl fl) && !(flagsPass c fl) then
      .nil
    else
      (if shouldInclude (isMarkerFl fl)
          (if c.include_children && !cs.isEmpty then
            serializeActions c (updateInMatching c (hasFlag fl .PushMarker) nm inM0) cs
          else .nil).isEmpty
          (passesMarker c (updateInMatching c (hasFlag fl .PushMarker) nm inM0))
          (markerRange c fl eid) then
        .cons (.mk eid aid nm (serializeFlags fl) ni nins
          (if c.include_children && !cs.isEmpty then
            serializeActions c (updateInMatching c (hasFlag fl .PushMarker) nm inM0) cs
          else .nil)) .nil
      else .nil)

end

/-- The children_result computation of step 6-7 (children are visited
only when include_children is true and the children list is truthy). -/
def childrenResult (c : Criteria) (inM : Bool) (cs : ActionList) : SActionList :=
  if c.include_children && !cs.isEmpty then serializeActions c inM cs else .nil

mutual

/-- The identity serialization: what serialize_actions would have to
return for the no-filter identity property (every node kept, same
order, same nesting). -/
def serializeAll : ActionList → SActionList
  | .nil => .nil
  | .cons a rest => .cons (serializePlain a) (serializeAll rest)

/-- Plain serialization of a single action and its whole subtree. -/
def serializePlain : Action → SAction
  | .mk eid aid nm fl ni nins cs =>
    .mk eid aid nm (serializeFlags fl) ni nins (serializeAll cs)

end

mutual

/-- The subtree rooted at the action contains a non-marker node. -/
def hasLeafA : Action → Bool
  | .mk _ _ _ fl _ _ cs => !(isMarkerFl fl) || hasLeafL cs

/-- Some tree of the forest contains a non-marker node. -/
def hasLeafL : ActionList → Bool
  | .nil => false
  | .cons a rest => hasLeafA a || hasLeafL rest

end

mutual

/-- Every marker node of the subtree has at least one non-marker
descendant. -/
def goodA : Action → Bool
  | .mk _ _ _ fl _ _ cs => (!(isMarkerFl fl) || hasLeafL cs) && goodL cs

/-- Every marker node of the forest has at least one non-marker
descendant. -/
def goodL : ActionList → Bool
  | .nil => true
  | .cons a rest => goodA a && goodL rest

end

mutual

/-- No node of the serialized subtree carries a marker flag name. -/
def noMarkersS : SAction → Bool
  | .mk _ _ _ fl _ _ cs =>
    !(fl.contains "PushMarker" || fl.contains "SetMarker" ||
      fl.contains "PopMarker") && noMarkersL cs

/-- No node of the serialized forest carries a marker flag name. -/
def noMarkersL : SActionList → Bool
  | .nil => true
  | .cons s rest => noMarkersS s && noMarkersL rest

end

mutual

/-- All event ids of a serialized subtree, in traversal order. -/
def idsS : SAction → List Int
  | .mk eid _ _ _ _ _ cs => eid :: idsL cs

/-- All event ids of a serialized forest, in traversal order. -/
def idsL : SActionList → List Int
  | .nil => []
  | .cons s rest => idsS s ++ idsL rest

end

mutual

/-- Reference definition written from the specification text for the
only_actions flattening property: the event ids of the non-marker
(leaf) nodes that pass the exclusion, range, flags and marker-scope
filters on the unflattened traversal of the forest, visiting children
only when include_children is true. -/
def specLeavesA (c : Criteria) : Bool → Action → List Int
  | inM, .mk eid _ nm fl _ _ cs =>
    if excludedMarker c nm && isMarkerFl fl then []
    else
      (if isMarkerFl fl then []
       else if inRange c eid && (!(flagsFilterActive c) || flagsPass c fl) &&
              passesMarker c (updateInMatching c (hasFlag fl .PushMarker) nm inM) then
        [eid]
       else []) ++
      (if c.include_children then
        specLeavesL c (updateInMatching c (hasFlag fl .PushMarker) nm inM) cs
      else [])

/-- Reference traversal over a forest; see specLeavesA. -/
def specLeavesL (c : Criteria) : Bool → ActionList → List Int
  | _, .nil => []
  | inM, .cons a rest => specLeavesA c inM a ++ specLeavesL c inM rest

end

mutual

/-- Every non-marker node of the subtree is childless. -/
def leavesChildlessA : Action → Bool
  | .mk _ _ _ fl _ _ cs =>
    (isMarkerFl fl || cs.isEmpty) && leavesChildlessL cs

/-- Every non-marker node of the forest is childless. -/
def leavesChildlessL : ActionList → Bool
  | .nil => true
  | .cons a rest => leavesChildlessA a && leavesChildlessL rest

end

mutual

/-- Size of an action tree (for strong induction). -/
def sizeA : Action → Nat
  | .mk _ _ _ _ _ _ cs => 1 + sizeL cs

/-- Size of an action forest (for strong induction). -/
def sizeL : ActionList → Nat
  | .nil => 0
  | .cons a rest => sizeA a + sizeL rest

end

end RDMCP

namespace RDMCP

/-! ## JSON values, requests and responses -/

/-- A JSON value as produced by json.loads (numbers restricted to
integers, which is all this protocol uses). -/
inductive Json where
  | null
  | bool (b : Bool)
  | num (n : Int)
  | str (s : String)
  | arr (items : List Json)
  | obj (fields : List (String × Json))

/-- The params mapping of a request. -/
def Params := List (String × Json)

/-- Python dict.get on the params mapping: absent keys and JSON null
values both come back as Python None, modelled as none. -/
def getParam (ps : Params) (k : String) : Option Json :=
  match ps.find? (fun p => p.1 == k) with
  | some (_, Json.null) => none
  | some (_, v) => some v
  | none => none

/-- Python truthiness of a JSON value. -/
def jsonTruthy : Json → Bool
  | .null => false
  | .bool b => b
  | .num n => !(n == 0)
  | .str s => !(s == "")
  | .arr l => !l.isEmpty
  | .obj f => !f.isEmpty

/-- A decoded request: the values request.get produces for the id,
method and params keys (params already defaulted to the empty
mapping). -/
structure Request where
  id : Option Json
  method : Option String
  params : Params

/-- The error object of an error response. -/
structure ErrObj where
  code : Int
  message : String

/-- A response dict: the echoed id plus at most one of the result and
error keys (none models an absent key). -/
structure Response where
  id : Option Json
  result : Option Json
  error : Option ErrObj

/-- RequestHandler._error_response. -/
def errorResponse (request_id : Option Json) (code : Int) (message : String) :
    Response :=
  ⟨request_id, none, some ⟨code, message⟩⟩

/-- A raised Python exception, distinguishing ValueError (which the
router maps to -32602) from every other exception type (mapped to
-32000). -/
inductive PyError where
  | valueError (msg : String)
  | otherError (msg : String)

/-! ## The facade (renderdoc_facade.py), with the external provider
abstracted as an opaque function -/

/-- State visible to the facade: the loaded capture (its action forest)
or none, plus the opaque external provider (replay controller, pipeline
state, file system) to which all behaviour not modelled here is
delegated. -/
structure FacadeState where
  capture : Option ActionList
  external : String → Params → Except PyError Json

/-- The IsCaptureLoaded guard used by the facade services (raises
ValueError when no capture is loaded). -/
def checkLoaded (st : FacadeState) : Except PyError Unit :=
  match st.capture with
  | none => .error (.valueError "No capture loaded")
  | some _ => .ok ()

mutual

/-- CaptureContext.GetAction: the action with the given event id, if
any, searching the whole loaded forest. -/
def findInList : ActionList → Int → Option Action
  | .nil, _ => none
  | .cons a rest, eid =>
    match findInAction a eid with
    | some x => some x
    | none => findInList rest eid

/-- GetAction search within one subtree. -/
def findInAction : Action → Int → Option Action
  | a@(.mk e _ _ _ _ _ cs), eid =>
    if e == eid then some a else findInList cs eid

end

/-- The modelled fields of the details dict built by
ActionService.get_draw_call_details (the remaining fields come from
provider attributes outside the model). -/
def detailsJson : Action → Json
  | .mk eid aid nm fl ni nins _ =>
    .obj [("event_id", .num eid), ("action_id", .num (Int.ofNat aid)),
          ("name", .str nm),
          ("flags", .arr ((serializeFlags fl).map Json.str)),
          ("num_indices", .num (Int.ofNat ni)),
          ("num_instances", .num (Int.ofNat nins))]

/-- ActionService.get_draw_call_details: requires a loaded capture,
looks the event id up with GetAction and raises ValueError with a
message naming the event id when there is no such action. -/
def facadeGetDrawCallDetails (st : FacadeState) (event_id : Int) :
    Except PyError Json :=
  match st.capture with
  | none => .error (.valueError "No capture loaded")
  | some forest =>
    match findInList forest event_id with
    | none => .error (.valueError ("No action at event " ++ toString event_id))
    | some a => .ok (detailsJson a)

/-- The Python int() conversion applied to a JSON parameter value. -/
def pyInt : Json → Except PyError Int
  | .num n => .ok n
  | .bool b => .ok (if b then 1 else 0)
  | .str s =>
    match s.toInt? with
    | some n => .ok n
    | none => .error (.valueError ("invalid literal for int() with base 10: " ++ s))
  | _ => .error (.otherError "int() argument must be a string or a number")

/-- The shader stage names accepted by Parsers.parse_stage. -/
def stageNames : List String :=
  ["vertex", "hull", "domain", "geometry", "pixel", "compute"]

/-- Parsers.parse_stage: lower-cases the stage string and raises
ValueError for unknown stages (a non-string raises AttributeError). -/
def parseStage : Json → Except PyError Unit
  | .str s =>
    if stageNames.contains s.toLower then .ok ()
    else .error (.valueError ("Unknown shader stage: " ++ s))
  | _ => .error (.otherError "value has no attribute lower")

/-- Parsers.parse_resource_id: takes the text after the last :: (or the
whole string) and converts it with int(). -/
def parseResourceId : Json → Except PyError Unit
  | .str s =>
    (match (s.splitOn "::").getLast? with
     | some part =>
       (match part.toInt? with
        | some _ => .ok ()
        | none =>
          .error (.valueError ("invalid literal for int() with base 10: " ++ part)))
     | none => .ok ())
  | _ => .error (.otherError "value is not a string")

/-! ## The request router (request_handler.py) -/

/-- The keys of the RequestHandler._methods dispatch table, in source
order. -/
def registeredMethods : List String :=
  ["ping", "get_capture_status", "get_draw_calls", "get_frame_summary",
   "find_draws_by_shader", "find_draws_by_texture", "find_draws_by_resource",
   "get_draw_call_details", "get_action_timings", "get_shader_info",
   "get_shader_source", "get_buffer_contents", "get_texture_info",
   "get_texture_data", "get_pipeline_state", "list_captures", "open_capture"]

/-- The required-parameter pattern of the handlers: params.get(key) is
None raises ValueError(msg). -/
def requireParam (params : Params) (k msg : String) : Except PyError Json :=
  match getParam params k with
  | none => .error (.valueError msg)
  | some v => .ok v

/-- Handler for ping. -/
def handlePing : Except PyError Json :=
  .ok (.obj [("status", .str "ok"), ("message", .str "pong")])

/-- Handler for get_capture_status: reports loaded False directly, and
otherwise consults the external provider for the api info. -/
def handleGetCaptureStatus (st : FacadeState) (params : Params) :
    Except PyError Json :=
  match st.capture with
  | none => .ok (.obj [("loaded", .bool false)])
  | some _ => st.external "get_capture_status" params

/-- The common shape of the facade services that require a loaded
capture and then only consult the external provider. -/
def handleLoadedExternal (st : FacadeState) (method : String)
    (params : Params) : Except PyError Json := do
  _ ← checkLoaded st
  st.external method params

/-- Handler for find_draws_by_shader: shader_name is required, a truthy
stage is parsed with parse_stage before the loaded-capture check, and
the search itself is external. -/
def handleFindDrawsByShader (st : FacadeState) (params : Params) :
    Except PyError Json := do
  _ ← requireParam params "shader_name" "shader_name is required"
  _ ← (match getParam params "stage" with
       | some sv => if jsonTruthy sv then parseStage sv else .ok ()
       | none => .ok ())
  _ ← checkLoaded st
  st.external "find_draws_by_shader" params

/-- Handler for find_draws_by_texture. -/
def handleFindDrawsByTexture (st : FacadeState) (params : Params) :
    Except PyError Json := do
  _ ← requireParam params "texture_name" "texture_name is required"
  _ ← checkLoaded st
  st.external "find_draws_by_texture" params

/-- Handler for find_draws_by_resource: the resource id string is parsed
before the loaded-capture check. -/
def handleFindDrawsByResource (st : FacadeState) (params : Params) :
    Except PyError Json := do
  let pv ← requireParam params "resource_id" "resource_id is required"
  _ ← parseResourceId pv
  _ ← checkLoaded st
  st.external "find_draws_by_resource" params

/-- Handler for get_draw_call_details: event_id is required, converted
with int(), and passed to the fully modelled facade lookup. -/
def handleGetDrawCallDetails (st : FacadeState) (params : Params) :
    Except PyError Json := do
  let pv ← requireParam params "event_id" "event_id is required"
  let n ← pyInt pv
  facadeGetDrawCallDetails st n

/-- Handler for get_shader_info. -/
def handleGetShaderInfo (st : FacadeState) (params : Params) :
    Except PyError Json := do
  let pv ← requireParam params "event_id" "event_id is required"
  _ ← requireParam params "stage" "stage is required"
  _ ← pyInt pv
  _ ← checkLoaded st
  st.external "get_shader_info" params

/-- Handler for get_shader_source: after validation the handler calls a
facade method that the facade object does not define, so the call
raises AttributeError. -/
def handleGetShaderSource (params : Params) : Except PyError Json := do
  let pv ← requireParam params "event_id" "event_id is required"
  _ ← requireParam params "stage" "stage is required"
  _ ← pyInt pv
  .error (.otherError "RenderDocFacade object has no attribute get_shader_source")

/-- The common shape of the resource handlers that require resource_id,
a loaded capture and then delegate to the provider. -/
def handleResourceExternal (st : FacadeState) (method : String)
    (params : Params) : Except PyError Json := do
  _ ← requireParam params "resource_id" "resource_id is required"
  _ ← checkLoaded st
  st.external method params

/-- Handler for get_pipeline_state. -/
def handleGetPipelineState (st : FacadeState) (params : Params) :
    Except PyError Json := do
  let pv ← requireParam params "event_id" "event_id is required"
  _ ← pyInt pv
  _ ← checkLoaded st
  st.external "get_pipeline_state" params

/-- Handler for list_captures (a filesystem operation, no
loaded-capture check). -/
def handleListCaptures (st : FacadeState) (params : Params) :
    Except PyError Json := do
  _ ← requireParam params "directory" "directory is required"
  st.external "list_captures" params

/-- Handler for open_capture. -/
def handleOpenCapture (st : FacadeState) (params : Params) :
    Except PyError Json := do
  _ ← requireParam params "capture_path" "capture_path is required"
  st.external "open_capture" params

/-- The body of the registered handler for one method name: the
parameter validation of request_handler.py followed by the facade
call. Facade behaviour that only touches the external provider is
delegated to the external function of the state. -/
def invokeMethod (st : FacadeState) (method : String) (params : Params) :
    Except PyError Json :=
  if method == "ping" then handlePing
  else if method == "get_capture_status" then handleGetCaptureStatus st params
  else if method == "get_draw_calls" then
    handleLoadedExternal st method params
  else if method == "get_frame_summary" then
    handleLoadedExternal st method params
  else if method == "find_draws_by_shader" then
    handleFindDrawsByShader st params
  else if method == "find_draws_by_texture" then
    handleFindDrawsByTexture st params
  else if method == "find_draws_by_resource" then
    handleFindDrawsByResource st params
  else if method == "get_draw_call_details" then
    handleGetDrawCallDetails st params
  else if method == "get_action_timings" then
    -- the facade object has no get_action_timings attribute
    .error (.otherError "RenderDocFacade object has no attribute get_action_timings")
  else if method == "get_shader_info" then handleGetShaderInfo st params
  else if method == "get_shader_source" then handleGetShaderSource params
  else if method == "get_buffer_contents" then
    handleResourceExternal st method params
  else if method == "get_texture_info" then
    handleResourceExternal st method params
  else if method == "get_texture_data" then
    handleResourceExternal st method params
  else if method == "get_pipeline_state" then
    handleGetPipelineState st params
  else if method == "list_captures" then handleListCaptures st params
  else if method == "open_capture" then handleOpenCapture st params
  else
    .error (.otherError "unreachable: unregistered method invoked")

/-- RequestHandler.handle: unknown method gives -32601, a ValueError
from the handler gives -32602, any other exception gives -32000, and a
normal return is wrapped as the result, always echoing the request
id. -/
def handle (st : FacadeState) (req : Request) : Response :=
  match req.method with
  | none => errorResponse req.id (-32601) "Method not found: None"
  | some m =>
    if registeredMethods.contains m then
      match invokeMethod st m req.params with
      | .ok v => ⟨req.id, some v, none⟩
      | .error (.valueError msg) => errorResponse req.id (-32602) msg
      | .error (.otherError msg) => errorResponse req.id (-32000) msg
    else errorResponse req.id (-32601) ("Method not found: " ++ m)

/-! ## Frame transport (socket_server.py and bridge/client.py) -/

/-- struct.pack of a 4-byte big-endian unsigned length. -/
def be4 (n : Nat) : List Nat :=
  [n / 2 ^ 24 % 256, n / 2 ^ 16 % 256, n / 2 ^ 8 % 256, n % 256]

/-- struct.unpack of 4 big-endian length bytes. -/
def fromBE4 (a b c d : Nat) : Nat :=
  ((a * 256 + b) * 256 + c) * 256 + d

/-- Writing one frame: the 4-byte big-endian length followed by the
payload. struct.pack with format I raises for lengths of 2 to the 32 or
more, modelled by none. -/
def writeFrame (payload : List Nat) : Option (List Nat) :=
  if payload.length < 2 ^ 32 then some (be4 payload.length ++ payload)
  else none

/-- Reading one frame from a byte stream: exactly 4 length bytes then
exactly that many payload bytes; none when the stream ends first
(connection closed). Returns the payload and the unconsumed rest of
the stream. -/
def readFrame (stream : List Nat) : Option (List Nat × List Nat) :=
  match stream with
  | a :: b :: c :: d :: rest =>
    if fromBE4 a b c d ≤ rest.length then
      some (rest.take (fromBE4 a b c d), rest.drop (fromBE4 a b c d))
    else none
  | _ => none

/-! ## The connection worker loop (MCPBridgeServer._handle_client) -/

/-- One received frame, as seen after json.loads: either a decoded
request dict or a payload on which decoding raised. -/
inductive FrameEvent where
  | decoded (req : Request)
  | malformed (errMsg : String)

/-- The id used by the synthetic parse-error response: the local
variable request survives across loop iterations, so the code echoes
the id of the most recently decoded request and only falls back to
None when no frame of this connection has decoded yet. -/
def staleId : Option Request → Option Json
  | none => none
  | some r => r.id

/-- One iteration of the worker loop body: a decoded frame is passed to
handler.handle (rebinding the request variable); a malformed frame
produces the synthetic -32700 response built in the except branch. -/
def stepWorker (h : Request → Response) (last : Option Request)
    (ev : FrameEvent) : Option Request × Response :=
  match ev with
  | .decoded req => (some req, h req)
  | .malformed m =>
    (last, ⟨staleId last, none, some ⟨-32700, "Parse error: " ++ m⟩⟩)

/-- The worker loop over the frames received on one connection,
producing the responses written back, in order. -/
def runWorker (h : Request → Response) : Option Request → List FrameEvent →
    List Response
  | _, [] => []
  | last, ev :: rest =>
    ((stepWorker h last ev).2) :: runWorker h (stepWorker h last ev).1 rest

/-- The request variable still bound after processing a list of frames
(the last successfully decoded request, if any). -/
def lastDecoded : Option Request → List FrameEvent → Option Request
  | last, [] => last
  | last, ev :: rest =>
    lastDecoded (match ev with
                 | .decoded r => some r
                 | .malformed _ => last) rest

end RDMCP

namespace RDMCP

/-! ## Further definitions used by the development -/

/-- Appending action lists (used to state positional properties). -/
def appendAL : ActionList → ActionList → ActionList
  | .nil, ys => ys
  | .cons a rest, ys => .cons a (appendAL rest ys)

mutual

/-- Size of a serialized tree (for strong induction). -/
def sizeS : SAction → Nat
  | .mk _ _ _ _ _ _ cs => 1 + sizeSL cs

/-- Size of a serialized forest (for strong induction). -/
def sizeSL : SActionList → Nat
  | .nil => 0
  | .cons s rest => sizeS s + sizeSL rest

end

/-- The criteria of the no-filter identity property: include_children
true and every other criterion unset. -/
def noFilter : Criteria := ⟨true, none, none, none, none, false, none⟩

/-- A no-op external provider for concrete instantiations. -/
def extNull : String → Params → Except PyError Json := fun _ _ => .ok .null

/-- Facade state with no capture loaded. -/
def stEmpty : FacadeState := ⟨none, extNull⟩

/-- The Scenario A forest of the specification: a Shadow Pass marker
with one draw, and a Main Pass marker with a draw and a dispatch. -/
def forestA : ActionList :=
  .cons (.mk 10 0 "Shadow Pass" [.PushMarker] 0 0
    (.cons (.mk 11 1 "Draw1" [.Drawcall] 3 1 .nil) .nil))
  (.cons (.mk 20 2 "Main Pass" [.PushMarker] 0 0
    (.cons (.mk 21 3 "Draw2" [.Drawcall] 3 1 .nil)
    (.cons (.mk 22 4 "Dispatch1" [.Dispatch] 0 0 .nil) .nil)))
  .nil)

/-- Scenario A criteria: marker_filter Main, children included. -/
def critA : Criteria := ⟨true, some "Main", none, none, none, false, none⟩

/-- The Scenario A expected result: only the Main Pass marker with both
of its children. -/
def resultA : SActionList :=
  .cons (.mk 20 2 "Main Pass" ["PushMarker"] 0 0
    (.cons (.mk 21 3 "Draw2" ["Drawcall"] 3 1 .nil)
    (.cons (.mk 22 4 "Dispatch1" ["Dispatch"] 0 0 .nil) .nil))) .nil

/-- Criteria with only_actions true and nothing else set. -/
def critOA : Criteria := ⟨true, none, none, none, none, true, none⟩

/-- Criteria with only_actions true and event_id_min 5. -/
def critN : Criteria := ⟨true, none, none, some 5, none, true, none⟩

/-- A forest with a draw whose event id fails the range filter and
whose nested child draw passes it. -/
def forestN : ActionList :=
  .cons (.mk 3 0 "Parent" [.Drawcall] 0 0
    (.cons (.mk 7 1 "Child" [.Drawcall] 3 1 .nil) .nil)) .nil

/-- Criteria whose exclude_markers and marker_filter both match the
name Shadow Pass. -/
def critEx : Criteria :=
  ⟨true, some "Shadow", some ["Shadow"], none, none, false, none⟩

/-- Criteria with include_children false and nothing else set. -/
def critIC : Criteria := ⟨false, none, none, none, none, false, none⟩

/-- A forest holding a single childless SetMarker node. -/
def loneMarker : ActionList := .cons (.mk 1 0 "m" [.SetMarker] 0 0 .nil) .nil

/-- A concrete ping request. -/
def reqPing : Request := ⟨some (.str "a"), some "ping", []⟩

end RDMCP

namespace RDMCP

/-! ## Helper lemmas about the serializer -/

theorem append_nil_left (ys : SActionList) : SActionList.append .nil ys = ys := rfl

theorem append_cons (x : SAction) (xs ys : SActionList) :
    SActionList.append (.cons x xs) ys = .cons x (SActionList.append xs ys) := rfl

/-- Restatement of serializeOne through the childrenResult helper. -/
theorem serializeOne_eq (c : Criteria) (inM : Bool) (eid : Int) (aid : Nat)
    (nm : String) (fl : List ActionFlag) (ni nins : Nat) (cs : ActionList) :
    serializeOne c inM (.mk eid aid nm fl ni nins cs) =
    (if excludedMarker c nm && isMarkerFl fl then .nil
     else if c.only_actions && isMarkerFl fl then
       childrenResult c (updateInMatching c (hasFlag fl .PushMarker) nm inM) cs
     else if flagsFilterActive c && !(isMarkerFl fl) && !(flagsPass c fl) then .nil
     else if shouldInclude (isMarkerFl fl)
         (childrenResult c (updateInMatching c (hasFlag fl .PushMarker) nm inM) cs).isEmpty
         (passesMarker c (updateInMatching c (hasFlag fl .PushMarker) nm inM))
         (markerRange c fl eid) then
       SActionList.cons (.mk eid aid nm (serializeFlags fl) ni nins
         (childrenResult c (updateInMatching c (hasFlag fl .PushMarker) nm inM) cs)) .nil
     else .nil) := rfl

theorem serializeActions_cons (c : Criteria) (inM : Bool) (a : Action)
    (rest : ActionList) :
    serializeActions c inM (.cons a rest) =
    SActionList.append (serializeOne c inM a) (serializeActions c inM rest) := rfl

/-- Induction principle for action forests that provides the inductive
hypothesis both for the children of the head tree and for the tail. -/
theorem actionListInd (P : ActionList → Prop) (hnil : P .nil)
    (hcons : ∀ eid aid nm fl ni nins cs rest, P cs → P rest →
      P (.cons (.mk eid aid nm fl ni nins cs) rest)) :
    ∀ l, P l := by
  have key : ∀ n l, sizeL l ≤ n → P l := by
    intro n
    induction n with
    | zero =>
      intro l h
      cases l with
      | nil => exact hnil
      | cons a rest =>
        cases a with
        | mk eid aid nm fl ni nins cs =>
          exfalso
          simp [sizeL, sizeA] at h
    | succ n ih =>
      intro l h
      cases l with
      | nil => exact hnil
      | cons a rest =>
        cases a with
        | mk eid aid nm fl ni nins cs =>
          simp only [sizeL, sizeA] at h
          exact hcons eid aid nm fl ni nins cs rest
            (ih cs (by omega)) (ih rest (by omega))
  exact fun l => key (sizeL l) l le_rfl

/-- Induction principle for serialized forests. -/
theorem sactionListInd (P : SActionList → Prop) (hnil : P .nil)
    (hcons : ∀ eid aid nm fl ni nins cs rest, P cs → P rest →
      P (.cons (.mk eid aid nm fl ni nins cs) rest)) :
    ∀ l, P l := by
  have key : ∀ n l, sizeSL l ≤ n → P l := by
    intro n
    induction n with
    | zero =>
      intro l h
      cases l with
      | nil => exact hnil
      | cons s rest =>
        cases s with
        | mk eid aid nm fl ni nins cs =>
          exfalso
          simp [sizeSL, sizeS] at h
    | succ n ih =>
      intro l h
      cases l with
      | nil => exact hnil
      | cons s rest =>
        cases s with
        | mk eid aid nm fl ni nins cs =>
          simp only [sizeSL, sizeS] at h
          exact hcons eid aid nm fl ni nins cs rest
            (ih cs (by omega)) (ih rest (by omega))
  exact fun l => key (sizeSL l) l le_rfl

theorem updateInMatching_noFilter (p : Bool) (nm : String) (b : Bool) :
    updateInMatching noFilter p nm b = b := rfl

theorem markerRange_noFilter (fl : List ActionFlag) (eid : Int) :
    markerRange noFilter fl eid = true := by
  cases h : isMarkerFl fl <;> simp [markerRange, inRange, noFilter, h]

theorem serializeAll_isEmpty (cs : ActionList) :
    (serializeAll cs).isEmpty = cs.isEmpty := by
  cases cs <;> rfl

theorem hasLeafL_isEmpty (cs : ActionList) (h : hasLeafL cs = true) :
    cs.isEmpty = false := by
  cases cs with
  | nil => simp [hasLeafL] at h
  | cons a rest => rfl

theorem childrenResult_noFilter (b : Bool) (cs : ActionList)
    (hcs : serializeActions noFilter b cs = serializeAll cs) :
    childrenResult noFilter b cs = serializeAll cs := by
  cases cs with
  | nil => rfl
  | cons a rest =>
    simpa [childrenResult, noFilter, ActionList.isEmpty] using hcs

/-! ## Flag-name lemmas -/

theorem serializeFlags_mem (fl : List ActionFlag) (s : String) :
    s ∈ serializeFlags fl ↔ ∃ p ∈ flagMap, hasFlag fl p.1 = true ∧ p.2 = s := by
  simp [serializeFlags, List.mem_map, List.mem_filter]

theorem flagMap_marker_names : ∀ p ∈ flagMap,
    (p.2 = "PushMarker" → p.1 = ActionFlag.PushMarker) ∧
    (p.2 = "SetMarker" → p.1 = ActionFlag.SetMarker) ∧
    (p.2 = "PopMarker" → p.1 = ActionFlag.PopMarker) := by decide

theorem marker_not_mem (fl : List ActionFlag) (h : isMarkerFl fl = false) :
    "PushMarker" ∉ serializeFlags fl ∧ "SetMarker" ∉ serializeFlags fl ∧
    "PopMarker" ∉ serializeFlags fl := by
  simp only [isMarkerFl, Bool.or_eq_false_iff] at h
  obtain ⟨⟨hp, hs⟩, hq⟩ := h
  have key : ∀ s : String, s = "PushMarker" ∨ s = "SetMarker" ∨ s = "PopMarker" →
      ¬ s ∈ serializeFlags fl := by
    intro s hsor hmem
    rw [serializeFlags_mem] at hmem
    obtain ⟨p, hpmem, hflag, hname⟩ := hmem
    obtain ⟨k1, k2, k3⟩ := flagMap_marker_names p hpmem
    rcases hsor with rfl | rfl | rfl
    · rw [k1 hname] at hflag; rw [hflag] at hp; exact Bool.noConfusion hp
    · rw [k2 hname] at hflag; rw [hflag] at hs; exact Bool.noConfusion hs
    · rw [k3 hname] at hflag; rw [hflag] at hq; exact Bool.noConfusion hq
  exact ⟨key _ (Or.inl rfl), key _ (Or.inr (Or.inl rfl)), key _ (Or.inr (Or.inr rfl))⟩

theorem noMarkersL_append (xs ys : SActionList) (hx : noMarkersL xs = true)
    (hy : noMarkersL ys = true) :
    noMarkersL (SActionList.append xs ys) = true := by
  induction xs using sactionListInd with
  | hnil => exact hy
  | hcons eid aid nm fl ni nins cs rest ihc ihr =>
    simp only [noMarkersL, noMarkersS, Bool.and_eq_true] at hx
    simp only [append_cons, noMarkersL, noMarkersS, Bool.and_eq_true]
    exact ⟨hx.1, ihr hx.2⟩

theorem idsL_append (xs ys : SActionList) :
    idsL (SActionList.append xs ys) = idsL xs ++ idsL ys := by
  induction xs using sactionListInd with
  | hnil => rfl
  | hcons eid aid nm fl ni nins cs rest ihc ihr =>
    simp only [append_cons, idsL, idsS, ihr, List.cons_append, List.append_assoc]

/-! ## Helper lemmas for the only_actions properties -/

/-- With only_actions true no node of the result carries a marker flag
name, for any inherited state. -/
theorem only_actions_no_markers : ∀ (l : ActionList) (c : Criteria)
    (inM : Bool), c.only_actions = true →
    noMarkersL (serializeActions c inM l) = true := by
  intro l
  induction l using actionListInd with
  | hnil => intro c inM _; rfl
  | hcons eid aid nm fl ni nins cs rest ihc ihr =>
    intro c inM h
    rw [serializeActions_cons]
    refine noMarkersL_append _ _ ?_ (ihr c inM h)
    rw [serializeOne_eq]
    split_ifs with h1 h2 h3 h4
    · rfl
    · unfold childrenResult
      split_ifs with h5
      · exact ihc c _ h
      · rfl
    · rfl
    · have hM : isMarkerFl fl = false := by
        cases hMf : isMarkerFl fl
        · rfl
        · exact absurd (by rw [h, hMf]; rfl) h2
      obtain ⟨k1, k2, k3⟩ := marker_not_mem fl hM
      have hcr : noMarkersL (childrenResult c
          (updateInMatching c (hasFlag fl .PushMarker) nm inM) cs) = true := by
        unfold childrenResult
        split_ifs with h5
        · exact ihc c _ h
        · rfl
      simp [noMarkersL, noMarkersS, k1, k2, k3, hcr]
    · rfl

/-- With only_actions true, on forests whose non-marker nodes are
childless, the event ids of the result agree position by position with
the reference leaf traversal. -/
theorem only_actions_leaves : ∀ (l : ActionList) (c : Criteria) (inM : Bool),
    c.only_actions = true → leavesChildlessL l = true →
    idsL (serializeActions c inM l) = specLeavesL c inM l := by
  intro l
  induction l using actionListInd with
  | hnil => intro c inM _ _; rfl
  | hcons eid aid nm fl ni nins cs rest ihc ihr =>
    intro c inM h hlc
    simp only [leavesChildlessL, leavesChildlessA, Bool.and_eq_true] at hlc
    obtain ⟨⟨hcl, hlcs⟩, hlr⟩ := hlc
    rw [serializeActions_cons, idsL_append]
    simp only [specLeavesL]
    rw [ihr c inM h hlr]
    congr 1
    rw [serializeOne_eq]
    cases hMf : isMarkerFl fl with
    | true =>
      cases hX : excludedMarker c nm with
      | true => simp [specLeavesA, hX, hMf, idsL]
      | false =>
        simp only [specLeavesA, hX, hMf, h, Bool.false_and, Bool.and_true,
          Bool.true_and, Bool.and_self, if_true, if_false, List.nil_append,
          Bool.false_eq_true, ite_true, ite_false]
        unfold childrenResult
        cases hic : c.include_children with
        | false => simp [idsL]
        | true =>
          cases cs with
          | nil => simp [ActionList.isEmpty, specLeavesL, idsL]
          | cons c1 cs2 =>
            simp only [ActionList.isEmpty, Bool.not_false, Bool.and_true,
              if_true, ite_true]
            exact ihc c _ h hlcs
    | false =>
      have hcs : cs = .nil := by
        rw [hMf, Bool.false_or] at hcl
        cases cs with
        | nil => rfl
        | cons c1 cs2 => exact Bool.noConfusion hcl
      subst hcs
      have hcr : ∀ b, childrenResult c b ActionList.nil = .nil := by
        intro b; simp [childrenResult, ActionList.isEmpty]
      simp only [specLeavesA, hMf, hcr, h, Bool.and_false, Bool.false_and,
        if_false, Bool.not_false, Bool.and_true, Bool.true_and, markerRange,
        shouldInclude, SActionList.isEmpty, specLeavesL, ite_self,
        List.append_nil, Bool.not_true, ite_false, ite_true,
        Bool.false_eq_true]
      cases hffa : flagsFilterActive c <;>
        cases hfp : flagsPass c fl <;>
        cases hR : inRange c eid <;>
        cases hP : passesMarker c
          (updateInMatching c (hasFlag fl ActionFlag.PushMarker) nm inM) <;>
        simp [hffa, hfp, hR, hP, idsL, idsS]

/-! ## Helper lemmas about the router -/

theorem handle_unknown (st : FacadeState) (id : Option Json) (params : Params)
    (m : String) (h : registeredMethods.contains m = false) :
    handle st ⟨id, some m, params⟩ =
    errorResponse id (-32601) ("Method not found: " ++ m) := by
  unfold handle
  dsimp only
  rw [h]
  rfl

theorem handle_ok (st : FacadeState) (id : Option Json) (params : Params)
    (m : String) (v1 : Json) (hreg : registeredMethods.contains m = true)
    (hinv : invokeMethod st m params = .ok v1) :
    handle st ⟨id, some m, params⟩ = ⟨id, some v1, none⟩ := by
  unfold handle
  dsimp only
  rw [hreg, hinv]
  rfl

theorem handle_valueError (st : FacadeState) (id : Option Json) (params : Params)
    (m msg : String) (hreg : registeredMethods.contains m = true)
    (hinv : invokeMethod st m params = .error (.valueError msg)) :
    handle st ⟨id, some m, params⟩ = errorResponse id (-32602) msg := by
  unfold handle
  dsimp only
  rw [hreg, hinv]
  rfl

theorem handle_otherError (st : FacadeState) (id : Option Json) (params : Params)
    (m msg : String) (hreg : registeredMethods.contains m = true)
    (hinv : invokeMethod st m params = .error (.otherError msg)) :
    handle st ⟨id, some m, params⟩ = errorResponse id (-32000) msg := by
  unfold handle
  dsimp only
  rw [hreg, hinv]
  rfl

theorem invoke_details_eq (st : FacadeState) (params : Params) :
    invokeMethod st "get_draw_call_details" params =
    handleGetDrawCallDetails st params := rfl

theorem invoke_shader_eq (st : FacadeState) (params : Params) :
    invokeMethod st "find_draws_by_shader" params =
    handleFindDrawsByShader st params := rfl

theorem find_shader_missing (st : FacadeState) (params : Params)
    (h : getParam params "shader_name" = none) :
    handleFindDrawsByShader st params =
    .error (.valueError "shader_name is required") := by
  unfold handleFindDrawsByShader
  rw [show requireParam params "shader_name" "shader_name is required" =
    Except.error (PyError.valueError "shader_name is required") from by
      simp [requireParam, h]]
  rfl

theorem details_not_found (forest : ActionList)
    (ext : String → Params → Except PyError Json) (params : Params) (eid : Int)
    (hev : getParam params "event_id" = some (.num eid))
    (hfind : findInList forest eid = none) :
    handleGetDrawCallDetails ⟨some forest, ext⟩ params =
    .error (.valueError ("No action at event " ++ toString eid)) := by
  unfold handleGetDrawCallDetails
  rw [show requireParam params "event_id" "event_id is required" =
    Except.ok (Json.num eid) from by simp [requireParam, hev]]
  show facadeGetDrawCallDetails ⟨some forest, ext⟩ eid = _
  unfold facadeGetDrawCallDetails
  simp [hfind]

end RDMCP

namespace RDMCP

/-! ## Claim theorems -/

/-- Claim C1 (corrected). The no-filter identity fails on markers with
no surviving descendants; it holds exactly as stated on every forest in
which each marker node has at least one non-marker descendant:
filtering with include_children true and all other criteria unset then
returns the identity serialization of the input forest, with the same
nodes, sibling order and nesting. -/
theorem no_filter_identity : ∀ l, goodL l = true →
    serializeActions noFilter false l = serializeAll l := by
  intro l
  induction l using actionListInd with
  | hnil => intro _; rfl
  | hcons eid aid nm fl ni nins cs rest ihc ihr =>
    intro h
    simp only [goodL, goodA, Bool.and_eq_true] at h
    obtain ⟨⟨hleaf, hgcs⟩, hgr⟩ := h
    rw [serializeActions_cons, ihr hgr, serializeOne_eq]
    have hcr : childrenResult noFilter
        (updateInMatching noFilter (hasFlag fl .PushMarker) nm false) cs =
        serializeAll cs := by
      rw [updateInMatching_noFilter]
      exact childrenResult_noFilter false cs (ihc hgcs)
    rw [hcr]
    have hexc : excludedMarker noFilter nm = false := rfl
    have honly : noFilter.only_actions = false := rfl
    have hff : flagsFilterActive noFilter = false := rfl
    have hsi : shouldInclude (isMarkerFl fl) (serializeAll cs).isEmpty
        (passesMarker noFilter
          (updateInMatching noFilter (hasFlag fl .PushMarker) nm false))
        (markerRange noFilter fl eid) = true := by
      rw [markerRange_noFilter, updateInMatching_noFilter]
      cases hM : isMarkerFl fl with
      | false => simp [shouldInclude, passesMarker, noFilter, markerFilterActive]
      | true =>
        rw [hM] at hleaf
        simp only [Bool.not_true, Bool.false_or] at hleaf
        simp [shouldInclude, passesMarker, noFilter, markerFilterActive,
          serializeAll_isEmpty, hasLeafL_isEmpty cs hleaf]
    rw [hexc, honly, hff, hsi]
    simp [serializeAll, serializePlain, append_cons, append_nil_left]

/-- Claim C1 counterexample: a childless SetMarker node is dropped by
the no-filter query, so the result is not structurally identical to the
input forest. -/
theorem no_filter_identity_counterexample :
    serializeActions noFilter false loneMarker = .nil ∧
    serializeAll loneMarker =
      .cons (.mk 1 0 "m" ["SetMarker"] 0 0 .nil) .nil ∧
    (SActionList.nil = .cons (.mk 1 0 "m" ["SetMarker"] 0 0 .nil) .nil → False) :=
  ⟨rfl, rfl, fun h => SActionList.noConfusion h⟩

/-- Claim C1 witness: the identity holds on the Scenario A forest. -/
theorem no_filter_identity_witness :
    goodL forestA = true ∧
    serializeActions noFilter false forestA = serializeAll forestA :=
  ⟨rfl, no_filter_identity forestA rfl⟩

/-- Claim C2 (corrected). With a capture loaded, a get_draw_call_details
request whose event id matches no action produces an error response
whose message names the event id, but with code -32602, not -32000: the
facade raises ValueError, and the router maps every ValueError to
-32602. -/
theorem details_unknown_event_response (forest : ActionList)
    (ext : String → Params → Except PyError Json) (id : Option Json)
    (params : Params) (eid : Int)
    (hev : getParam params "event_id" = some (.num eid))
    (hfind : findInList forest eid = none) :
    handle ⟨some forest, ext⟩ ⟨id, some "get_draw_call_details", params⟩ =
    errorResponse id (-32602) ("No action at event " ++ toString eid) := by
  have hinv : invokeMethod ⟨some forest, ext⟩ "get_draw_call_details" params =
      .error (.valueError ("No action at event " ++ toString eid)) := by
    rw [invoke_details_eq]
    exact details_not_found forest ext params eid hev hfind
  exact handle_valueError _ id params "get_draw_call_details" _ rfl hinv

/-- Claim C2 counterexample: with the Scenario A forest loaded, asking
for event 999 yields error code -32602, not -32000 as claimed. -/
theorem details_unknown_event_counterexample :
    (handle ⟨some forestA, extNull⟩
      ⟨some (.str "r1"), some "get_draw_call_details",
        [("event_id", .num 999)]⟩).error =
      some ⟨-32602, "No action at event 999"⟩ ∧
    ((-32602 : Int) = -32000 → False) :=
  ⟨rfl, by decide⟩

/-- Claim C2 witness: the amended statement at event id 999 on the
Scenario A forest. -/
theorem details_unknown_event_response_witness :
    handle ⟨some forestA, extNull⟩
      ⟨some (.str "r1"), some "get_draw_call_details",
        [("event_id", .num 999)]⟩ =
    errorResponse (some (.str "r1")) (-32602)
      ("No action at event " ++ toString (999 : Int)) :=
  details_unknown_event_response forestA extNull (some (.str "r1"))
    [("event_id", .num 999)] 999 rfl rfl

/-- Claim C3 (corrected). A malformed frame always gets a synthetic
-32700 response, but its id is null only while no frame of the
connection has decoded successfully: the local request variable
survives loop iterations, so after any decoded request the synthetic
response echoes the id of the most recently decoded request. -/
theorem parse_error_response_id : ∀ (evs : List FrameEvent)
    (h : Request → Response) (last : Option Request) (m : String),
    runWorker h last (evs ++ [.malformed m]) =
    runWorker h last evs ++
      [⟨staleId (lastDecoded last evs), none,
        some ⟨-32700, "Parse error: " ++ m⟩⟩] := by
  intro evs
  induction evs with
  | nil => intro h last m; rfl
  | cons ev rest ih =>
    intro h last m
    cases ev with
    | decoded req =>
      simp only [List.cons_append, runWorker, stepWorker, lastDecoded,
        List.append_eq]
      rw [ih]
    | malformed m2 =>
      simp only [List.cons_append, runWorker, stepWorker, lastDecoded,
        List.append_eq]
      rw [ih]

/-- Claim C3 counterexample: after a successfully decoded ping request
with id a, a malformed frame on the same connection gets a -32700
response whose id is a, not null. -/
theorem parse_error_response_id_counterexample :
    (runWorker (handle stEmpty) none
      [.decoded reqPing, .malformed "boom"]).getLast? =
      some ⟨some (.str "a"), none, some ⟨-32700, "Parse error: boom"⟩⟩ ∧
    (some (Json.str "a") = (none : Option Json) → False) :=
  ⟨rfl, fun h => Option.noConfusion h⟩

/-- Claim C4 (corrected). The frame round trip is exact for every
payload the length prefix can represent, namely those shorter than 2 to
the 32 bytes; longer payloads cannot be framed at all because the
4-byte pack raises. -/
theorem frame_roundtrip (p extra : List Nat) (h : p.length < 2 ^ 32) :
    ∃ f, writeFrame p = some f ∧ readFrame (f ++ extra) = some (p, extra) := by
  refine ⟨be4 p.length ++ p, by unfold writeFrame; rw [if_pos h], ?_⟩
  have hL : fromBE4 (p.length / 2 ^ 24 % 256) (p.length / 2 ^ 16 % 256)
      (p.length / 2 ^ 8 % 256) (p.length % 256) = p.length := by
    unfold fromBE4
    omega
  simp only [be4, List.cons_append, List.nil_append, readFrame, hL]
  have hle : p.length ≤ (p ++ extra).length := by simp
  rw [if_pos hle]
  rw [List.take_left p extra, List.drop_left p extra]

/-- Claim C4 counterexample: a payload of 2 to the 32 bytes cannot be
framed, so the round trip does not reproduce it. -/
theorem frame_roundtrip_counterexample :
    ((writeFrame (List.replicate (2 ^ 32) 0)).bind readFrame) = none ∧
    ((none : Option (List Nat × List Nat)) =
      some (List.replicate (2 ^ 32) 0, ([] : List Nat)) → False) := by
  constructor
  · have hlen : (List.replicate (2 ^ 32) (0 : Nat)).length = 2 ^ 32 :=
      List.length_replicate _ _
    have hw : writeFrame (List.replicate (2 ^ 32) 0) = none := by
      unfold writeFrame
      rw [hlen]
      exact if_neg (Nat.lt_irrefl _)
    rw [hw]
    rfl
  · intro h
    exact Option.noConfusion h

/-- Claim C4 witness: the empty payload round-trips exactly. -/
theorem frame_roundtrip_witness :
    ([] : List Nat).length < 2 ^ 32 ∧
    ∃ f, writeFrame ([] : List Nat) = some f ∧
      readFrame (f ++ ([] : List Nat)) = some (([] : List Nat), ([] : List Nat)) :=
  ⟨by decide, frame_roundtrip [] [] (by decide)⟩

/-- Claim C5 (corrected). With only_actions true no result node ever
carries a marker flag, for every forest and criteria. The multiset
equality between result leaf ids and the leaves passing the other
filters on the unflattened traversal holds on forests whose non-marker
nodes are childless; it fails in general because a non-marker node that
fails a filter drops its whole subtree from the result. -/
theorem only_actions_flattening :
    (∀ (l : ActionList) (c : Criteria) (inM : Bool), c.only_actions = true →
      noMarkersL (serializeActions c inM l) = true) ∧
    (∀ (l : ActionList) (c : Criteria) (inM : Bool), c.only_actions = true →
      leavesChildlessL l = true →
      ((idsL (serializeActions c inM l) : Multiset Int) =
       (specLeavesL c inM l : Multiset Int))) := by
  refine ⟨only_actions_no_markers, ?_⟩
  intro l c inM h hlc
  exact congrArg (fun x : List Int => (x : Multiset Int))
    (only_actions_leaves l c inM h hlc)

/-- Claim C5 counterexample: with only_actions true and event_id_min 5,
a draw at event 3 with a nested draw at event 7 produces an empty
result, while the leaf at event 7 passes every per-node filter of the
unflattened traversal. -/
theorem only_actions_flattening_counterexample :
    idsL (serializeActions critN false forestN) = [] ∧
    specLeavesL critN false forestN = [7] ∧
    ((([] : List Int) : Multiset Int) = (([7] : List Int) : Multiset Int) → False) :=
  ⟨rfl, rfl, by decide⟩

/-- Claim C5 witness: both parts instantiated on the Scenario A forest
with only_actions true. -/
theorem only_actions_flattening_witness :
    critOA.only_actions = true ∧ leavesChildlessL forestA = true ∧
    ((idsL (serializeActions critOA false forestA) : Multiset Int) =
     (specLeavesL critOA false forestA : Multiset Int)) :=
  ⟨rfl, rfl, only_actions_flattening.2 forestA critOA false rfl rfl⟩

/-- Claim C6 (confirmed). The threaded in_matching state becomes true
only at a PushMarker node whose name contains the marker filter (never
at SetMarker or PopMarker nodes), once true it stays true for the whole
subtree, and on the Scenario A forest the query with marker_filter Main
returns exactly the Main Pass marker with both children and no Shadow
Pass node. -/
theorem marker_filter_semantics :
    (∀ (c : Criteria) (inM : Bool) (fl : List ActionFlag) (nm : String),
      updateInMatching c (hasFlag fl .PushMarker) nm inM = true →
      inM = true ∨ (hasFlag fl .PushMarker = true ∧ markerFilterHits c nm = true)) ∧
    (∀ (c : Criteria) (fl : List ActionFlag) (nm : String),
      updateInMatching c (hasFlag fl .PushMarker) nm true = true) ∧
    serializeActions critA false forestA = resultA := by
  refine ⟨?_, ?_, rfl⟩
  · intro c inM fl nm h
    unfold updateInMatching at h
    split_ifs at h with hc
    · simp only [Bool.and_eq_true] at hc
      exact Or.inr ⟨hc.1.2, hc.2⟩
    · exact Or.inl h
  · intro c fl nm
    unfold updateInMatching
    split_ifs <;> rfl

/-- Claim C6 witness: the state-update implication instantiated at the
Main Pass push marker under the Scenario A criteria. -/
theorem marker_filter_semantics_witness :
    false = true ∨ (hasFlag [ActionFlag.PushMarker] ActionFlag.PushMarker = true ∧
      markerFilterHits critA "Main Pass" = true) :=
  marker_filter_semantics.1 critA false [ActionFlag.PushMarker] "Main Pass" rfl

/-- Claim C7 (confirmed). A marker node whose name contains an excluded
string contributes nothing to the result, wherever it sits among its
siblings and whatever the other criteria say, in particular even when
its name also contains the marker filter. -/
theorem exclusion_precedence : ∀ (pre : ActionList) (c : Criteria) (inM : Bool)
    (post : ActionList) (eid : Int) (aid : Nat) (nm : String)
    (fl : List ActionFlag) (ni nins : Nat) (cs : ActionList),
    isMarkerFl fl = true → excludedMarker c nm = true →
    serializeActions c inM (appendAL pre (.cons (.mk eid aid nm fl ni nins cs) post)) =
    serializeActions c inM (appendAL pre post) := by
  intro pre
  induction pre using actionListInd with
  | hnil =>
    intro c inM post eid aid nm fl ni nins cs hM hX
    show serializeActions c inM (.cons (.mk eid aid nm fl ni nins cs) post) = _
    rw [serializeActions_cons, serializeOne_eq, hM, hX]
    simp [appendAL, append_nil_left]
  | hcons e2 a2 n2 f2 i2 j2 cs2 rest ihc ihr =>
    intro c inM post eid aid nm fl ni nins cs hM hX
    simp only [appendAL]
    rw [serializeActions_cons, serializeActions_cons,
      ihr c inM post eid aid nm fl ni nins cs hM hX]

/-- Claim C7 witness: the Shadow Pass marker, matching both the exclude
list and the marker filter, is absent with its subtree. -/
theorem exclusion_precedence_witness :
    isMarkerFl [ActionFlag.PushMarker] = true ∧
    excludedMarker critEx "Shadow Pass" = true ∧
    markerFilterHits critEx "Shadow Pass" = true ∧
    serializeActions critEx false
      (appendAL .nil (.cons (.mk 10 0 "Shadow Pass" [.PushMarker] 0 0
        (.cons (.mk 11 1 "Draw1" [.Drawcall] 3 1 .nil) .nil)) .nil)) =
    serializeActions critEx false (appendAL .nil .nil) :=
  ⟨rfl, rfl, rfl,
    exclusion_precedence .nil critEx false .nil 10 0 "Shadow Pass"
      [.PushMarker] 0 0 (.cons (.mk 11 1 "Draw1" [.Drawcall] 3 1 .nil) .nil)
      rfl rfl⟩

/-- Claim C8 (confirmed). Dispatch of an unregistered method returns
-32601 with a Method not found message; a handler raising a validation
error returns -32602 with the validation message, in particular
find_draws_by_shader without shader_name; any other handler failure
returns -32000 with the failure message; and a successful handler
return value is wrapped as the result. -/
theorem dispatch_error_taxonomy :
    (∀ (st : FacadeState) (id : Option Json) (params : Params) (m : String),
      registeredMethods.contains m = false →
      handle st ⟨id, some m, params⟩ =
        errorResponse id (-32601) ("Method not found: " ++ m)) ∧
    (∀ (st : FacadeState) (id : Option Json) (params : Params),
      getParam params "shader_name" = none →
      handle st ⟨id, some "find_draws_by_shader", params⟩ =
        errorResponse id (-32602) "shader_name is required") ∧
    (∀ (st : FacadeState) (id : Option Json) (params : Params) (m msg : String),
      registeredMethods.contains m = true →
      invokeMethod st m params = .error (.valueError msg) →
      handle st ⟨id, some m, params⟩ = errorResponse id (-32602) msg) ∧
    (∀ (st : FacadeState) (id : Option Json) (params : Params) (m msg : String),
      registeredMethods.contains m = true →
      invokeMethod st m params = .error (.otherError msg) →
      handle st ⟨id, some m, params⟩ = errorResponse id (-32000) msg) ∧
    (∀ (st : FacadeState) (id : Option Json) (params : Params) (m : String)
      (v1 : Json), registeredMethods.contains m = true →
      invokeMethod st m params = .ok v1 →
      handle st ⟨id, some m, params⟩ = ⟨id, some v1, none⟩) := by
  refine ⟨handle_unknown, ?_, ?_, ?_, ?_⟩
  · intro st id params h
    have hinv : invokeMethod st "find_draws_by_shader" params =
        .error (.valueError "shader_name is required") := by
      rw [invoke_shader_eq]
      exact find_shader_missing st params h
    exact handle_valueError st id params "find_draws_by_shader" _ rfl hinv
  · intro st id params m msg hreg hinv
    exact handle_valueError st id params m msg hreg hinv
  · intro st id params m msg hreg hinv
    exact handle_otherError st id params m msg hreg hinv
  · intro st id params m v1 hreg hinv
    exact handle_ok st id params m v1 hreg hinv

/-- Claim C8 witness: an unregistered method name gets the -32601
response. -/
theorem dispatch_error_taxonomy_witness :
    handle stEmpty ⟨none, some "bogus_method", []⟩ =
    errorResponse none (-32601) "Method not found: bogus_method" :=
  dispatch_error_taxonomy.1 stEmpty none [] "bogus_method" rfl

/-- Claim C9 (confirmed). With include_children false the result
contains no marker node at any level: children are never visited, so a
marker can never show passing children and is always dropped. -/
theorem include_children_false_drops_markers : ∀ (l : ActionList)
    (c : Criteria) (inM : Bool), c.include_children = false →
    noMarkersL (serializeActions c inM l) = true := by
  intro l
  induction l using actionListInd with
  | hnil => intro c inM _; rfl
  | hcons eid aid nm fl ni nins cs rest ihc ihr =>
    intro c inM h
    rw [serializeActions_cons]
    have hcr : childrenResult c
        (updateInMatching c (hasFlag fl .PushMarker) nm inM) cs = .nil := by
      simp [childrenResult, h]
    refine noMarkersL_append _ _ ?_ (ihr c inM h)
    rw [serializeOne_eq, hcr]
    split_ifs with h1 h2 h3 h4
    · rfl
    · rfl
    · rfl
    · cases hM : isMarkerFl fl with
      | false =>
        obtain ⟨k1, k2, k3⟩ := marker_not_mem fl hM
        simp [noMarkersL, noMarkersS, k1, k2, k3]
      | true => rw [hM] at h4; simp [shouldInclude, SActionList.isEmpty] at h4
    · rfl

/-- Claim C9 witness: the Scenario A forest with include_children false
yields a marker-free result. -/
theorem include_children_false_drops_markers_witness :
    critIC.include_children = false ∧
    noMarkersL (serializeActions critIC false forestA) = true :=
  ⟨rfl, include_children_false_drops_markers forestA critIC false rfl⟩

/-- Claim C10 (confirmed). For every request, handle returns a response
that echoes the request id unchanged and carries exactly one of result
and error, never both and never neither. -/
theorem response_shape_invariant : ∀ (st : FacadeState) (req : Request),
    (handle st req).id = req.id ∧
    (((handle st req).result.isSome = true ∧ (handle st req).error = none) ∨
     ((handle st req).result = none ∧ (handle st req).error.isSome = true)) := by
  intro st req
  obtain ⟨id, method, params⟩ := req
  cases method with
  | none => exact ⟨rfl, Or.inr ⟨rfl, rfl⟩⟩
  | some m =>
    by_cases hreg : registeredMethods.contains m = true
    · cases hinv : invokeMethod st m params with
      | ok v =>
        rw [handle_ok st id params m v hreg hinv]
        exact ⟨rfl, Or.inl ⟨rfl, rfl⟩⟩
      | error e =>
        cases e with
        | valueError msg =>
          rw [handle_valueError st id params m msg hreg hinv]
          exact ⟨rfl, Or.inr ⟨rfl, rfl⟩⟩
        | otherError msg =>
          rw [handle_otherError st id params m msg hreg hinv]
          exact ⟨rfl, Or.inr ⟨rfl, rfl⟩⟩
    · rw [handle_unknown st id params m (Bool.eq_false_iff.mpr hreg)]
      exact ⟨rfl, Or.inr ⟨rfl, rfl⟩⟩

end RDMCP
